import Mathlib

/-!
QtRaw: the `RawIOHandler` image plugin (`src/raw-io-handler.cpp`)

A shallow embedding of `RawIOHandlerPrivate::load`, `RawIOHandler::canRead`,
`RawIOHandler::read`, `RawIOHandler::option`, `RawIOHandler::setOption` and
`RawIOHandler::supportsOption`, followed by theorems about them.

Modelling conventions

* Bytes (`uchar`) are natural numbers; the handler only copies them.
* A `uchar *` buffer is a `List Nat`; a read or a write outside the buffer is
  undefined behaviour in C++ and makes the embedded operation return `none`.
* The `ushort` fields of LibRaw (`width`, `height`, `colors`, `bits`, `twidth`,
  `theight`) are natural numbers, and the `int` products computed from them
  (`numPixels`, `pixelSize`, `i * 4`) are taken on the naturals, that is inside
  the range where C++ gives signed arithmetic a meaning.
* `QSize` carries two `int`s, which may be negative: they are integers.
* A null pointer is `none`.
* LibRaw, `QImage::loadFromData`, the `QImage` buffer constructor and
  `QImage::scaled` are external to the repository; they are gathered in the
  record `Extern`, over which every definition is parameterised.
-/

namespace QtRaw

/-! ## Data model -/

/-- Qt size: `QSize`, two `int`s. -/
structure QSize where
  width : Int
  height : Int
deriving DecidableEq, Repr

/-- Default constructor `QSize()`: an invalid size, both dimensions `-1`. -/
def QSize.invalid : QSize := ⟨-1, -1⟩

/-- Qt validity test `QSize::isValid()`: both dimensions are at least zero. -/
def QSize.isValid (s : QSize) : Bool :=
  decide (0 ≤ s.width) && decide (0 ≤ s.height)

/-- Qt image: `QImage`, reduced to its size and its pixel bytes. -/
structure QImage where
  width : Int
  height : Int
  bits : List Nat
deriving DecidableEq, Repr

/-- Default constructor `QImage()`: the null image, of size 0 x 0. -/
def QImage.null : QImage := ⟨0, 0, []⟩

/-- Accessor `QImage::size()`. -/
def QImage.size (img : QImage) : QSize := ⟨img.width, img.height⟩

/-- Tag `enum LibRaw_image_formats` of a processed image. -/
inductive LibRaw_image_formats where
  | LIBRAW_IMAGE_JPEG
  | LIBRAW_IMAGE_BITMAP
deriving DecidableEq, Repr

/-- LibRaw record `libraw_processed_image_t`; `data_size` is `data.length`. -/
structure libraw_processed_image_t where
  type : LibRaw_image_formats
  height : Nat
  width : Nat
  colors : Nat
  bits : Nat
  data : List Nat
deriving DecidableEq, Repr

/-- What the handler observes of an opened `LibRaw` object:
`imgdata.sizes`, `imgdata.thumbnail`, and the images that
`unpack_thumb(); dcraw_make_mem_thumb()` and
`unpack(); dcraw_process(); dcraw_make_mem_image()` hand out
(`none` is a null pointer). -/
structure LibRaw where
  sizes_width : Nat
  sizes_height : Nat
  thumbnail_twidth : Nat
  thumbnail_theight : Nat
  dcraw_make_mem_thumb : Option libraw_processed_image_t
  dcraw_make_mem_image : Option libraw_processed_image_t
deriving DecidableEq, Repr

/-- A `QIODevice *` that is not null, identified by a handle. -/
abbrev QIODevice := Nat

/-- The `Datastream` wrapper built over a device. -/
structure Datastream where
  device : QIODevice
deriving DecidableEq, Repr

/-- State `class RawIOHandlerPrivate` (the back pointer `q` is left out). -/
structure RawIOHandlerPrivate where
  raw : Option LibRaw
  stream : Option Datastream
  defaultSize : QSize
  scaledSize : QSize
deriving DecidableEq, Repr

/-- Constructor `RawIOHandlerPrivate(RawIOHandler *qq)`: only `raw` is
initialised (to null); `stream` keeps whatever the memory held, and both
sizes are default-constructed. -/
def RawIOHandlerPrivate.init (stream : Option Datastream) : RawIOHandlerPrivate :=
  { raw := none, stream := stream,
    defaultSize := QSize.invalid, scaledSize := QSize.invalid }

/-- The collaborators outside the repository. -/
structure Extern where
  /-- Call `LibRaw::open_datastream` on a fresh `LibRaw`:
  the opened object, or `none` when the status is not `LIBRAW_SUCCESS`. -/
  open_datastream : QIODevice → Option LibRaw
  /-- Call `QImage::loadFromData(data, data_size, "JPEG")` on a null image:
  the resulting image (still null when decoding fails). -/
  loadFromData : List Nat → QImage
  /-- Constructor `QImage(pixels, width, height, QImage::Format_RGB32)`. -/
  fromRGB32 : List Nat → Nat → Nat → QImage
  /-- Call `scaled(size, Qt::IgnoreAspectRatio, Qt::SmoothTransformation)`. -/
  scaled : QImage → QSize → QImage
  /-- Content of freshly allocated, uninitialised memory, byte by byte. -/
  uninit : Nat → Nat

/-! ## `RawIOHandlerPrivate::load` and `RawIOHandler::canRead` -/

/-- Method `RawIOHandlerPrivate::load` (lines 56-75): result and new state. -/
def load (ext : Extern) (d : RawIOHandlerPrivate) (device : Option QIODevice) :
    Bool × RawIOHandlerPrivate :=
  match device with
  | none => (false, d)
  | some dev =>
    match d.raw with
    | some _ => (true, d)
    | none =>
      match ext.open_datastream dev with
      | none => (false, { d with raw := none, stream := none })
      | some r =>
        (true, { d with
          raw := some r
          stream := some ⟨dev⟩
          defaultSize := ⟨(r.sizes_width : Int), (r.sizes_height : Int)⟩ })

/-- Method `RawIOHandler::canRead` (lines 90-95). -/
def canRead (ext : Extern) (d : RawIOHandlerPrivate) (device : Option QIODevice) :
    Bool × RawIOHandlerPrivate :=
  match load ext d device with
  | (false, d1) => (false, d1)
  | (true, d1) => (true, d1)

/-! ## `RawIOHandler::read` -/

/-- Read `data[idx]`; `none` outside the buffer. -/
def readByte (data : List Nat) (idx : Nat) : Option Nat :=
  data[idx]?

/-- Assign `pixels[idx] = v`; `none` outside the buffer. -/
def writeByte (pixels : List Nat) (idx v : Nat) : Option (List Nat) :=
  if idx < pixels.length then some (pixels.set idx v) else none

/-- Allocation `new uchar[n]`: `n` bytes of uninitialised memory. -/
def newUchar (ext : Extern) (n : Nat) : List Nat :=
  (List.range n).map ext.uninit

/-- Body of the conversion loop (lines 136-144) for pixel `i`, with the
pointer `data` standing `data` bytes after `output->data`. -/
def pixelBody (output : libraw_processed_image_t) (colorSize data i : Nat)
    (pixels : List Nat) : Option (List Nat) :=
  if output.colors = 3 then do
    let b0 ← readByte output.data (data + 2 * colorSize)
    let pixels ← writeByte pixels (i * 4) b0
    let b1 ← readByte output.data (data + 1 * colorSize)
    let pixels ← writeByte pixels (i * 4 + 1) b1
    let b2 ← readByte output.data (data + 0)
    writeByte pixels (i * 4 + 2) b2
  else do
    let b0 ← readByte output.data (data + 0)
    let pixels ← writeByte pixels (i * 4) b0
    let b1 ← readByte output.data (data + 0)
    let pixels ← writeByte pixels (i * 4 + 1) b1
    let b2 ← readByte output.data (data + 0)
    writeByte pixels (i * 4 + 2) b2

/-- The loop `for (int i = 0; i < numPixels; i++, data += pixelSize)`
(line 135), with `todo = numPixels - i` iterations left. -/
def pixelLoop (output : libraw_processed_image_t) (colorSize pixelSize : Nat) :
    Nat → Nat → Nat → List Nat → Option (List Nat)
  | 0, _, _, pixels => some pixels
  | todo + 1, i, data, pixels =>
    match pixelBody output colorSize data i pixels with
    | none => none
    | some pixels1 =>
      pixelLoop output colorSize pixelSize todo (i + 1) (data + pixelSize) pixels1

/-- Lines 130-145 of `read`: the buffer `pixels` after the conversion loop. -/
def convertPixels (ext : Extern) (output : libraw_processed_image_t) :
    Option (List Nat) :=
  let numPixels := output.width * output.height
  let colorSize := output.bits / 8
  let pixelSize := output.colors * colorSize
  let pixels := newUchar ext (numPixels * 4)
  pixelLoop output colorSize pixelSize numPixels 0 0 pixels

/-- Lines 125-149 of `read`: the image `unscaled` built from the decoder
output. -/
def normalize (ext : Extern) (output : libraw_processed_image_t) : Option QImage :=
  if output.type = LibRaw_image_formats.LIBRAW_IMAGE_JPEG then
    some (ext.loadFromData output.data)
  else
    match convertPixels ext output with
    | none => none
    | some pixels => some (ext.fromRGB32 pixels output.width output.height)

/-- Lines 108-109 of `read`: the size the returned image is to have. -/
def finalSize (d : RawIOHandlerPrivate) : QSize :=
  if d.scaledSize.isValid then d.scaledSize else d.defaultSize

/-- Condition of lines 113-114 of `read`: the thumbnail is decoded. -/
def usesThumbnail (fs : QSize) (raw : LibRaw) : Bool :=
  decide (fs.width < (raw.thumbnail_twidth : Int)) ||
    decide (fs.height < (raw.thumbnail_theight : Int))

/-- Lines 113-123 of `read`: the decoder output that is converted. -/
def selectOutput (fs : QSize) (raw : LibRaw) : Option libraw_processed_image_t :=
  if usesThumbnail fs raw then raw.dcraw_make_mem_thumb
  else raw.dcraw_make_mem_image

/-- Lines 151-162 of `read`: the image stored in `*image`. -/
def finish (ext : Extern) (unscaled : QImage) (fs : QSize) : QImage :=
  if unscaled.size ≠ fs then ext.scaled unscaled fs else unscaled

/-- Method `RawIOHandler::read` (lines 104-167): the returned flag, the new
state and the content of `*image`; `none` when the run leaves defined
behaviour (null decoder output, access outside a buffer). -/
def read (ext : Extern) (d : RawIOHandlerPrivate) (device : Option QIODevice)
    (image : QImage) : Option (Bool × RawIOHandlerPrivate × QImage) :=
  match load ext d device with
  | (false, d1) => some (false, d1, image)
  | (true, d1) =>
    match d1.raw with
    | none => none
    | some raw =>
      let fs := finalSize d1
      match selectOutput fs raw with
      | none => none
      | some output =>
        match normalize ext output with
        | none => none
        | some unscaled => some (true, d1, finish ext unscaled fs)

/-! ## Options -/

/-- Qt enumeration `QImageIOHandler::ImageOption`. -/
inductive ImageOption where
  | Size
  | ClipRect
  | Description
  | ScaledClipRect
  | ScaledSize
  | CompressionRatio
  | Gamma
  | Quality
  | Name
  | SubType
  | IncrementalReading
  | Endianness
  | Animation
  | BackgroundColor
  | ImageFormat
  | SupportedSubTypes
  | OptimizedWrite
  | ProgressiveScanWrite
  | ImageTransformation
  | TransformedByDefault
deriving DecidableEq, Repr

/-- Qt variant `QVariant`, with the payloads the handler meets:
the empty variant `QVariant()`, an `int` (enumeration values), a `QSize`. -/
inductive QVariant where
  | empty
  | int (n : Int)
  | size (s : QSize)
deriving DecidableEq, Repr

/-- Conversion `QVariant::toSize()`: the size held, else `QSize()`. -/
def QVariant.toSize : QVariant → QSize
  | QVariant.size s => s
  | _ => QSize.invalid

/-- Enumeration value `QImage::Format_RGB32`. -/
def Format_RGB32 : Int := 4

/-- Method `RawIOHandler::option` (lines 170-184): value and new state. -/
def option (ext : Extern) (d : RawIOHandlerPrivate) (device : Option QIODevice)
    (o : ImageOption) : QVariant × RawIOHandlerPrivate :=
  match o with
  | ImageOption.ImageFormat => (QVariant.int Format_RGB32, d)
  | ImageOption.Size =>
    let d1 := (load ext d device).2
    (QVariant.size d1.defaultSize, d1)
  | ImageOption.ScaledSize => (QVariant.size d.scaledSize, d)
  | _ => (QVariant.empty, d)

/-- Method `RawIOHandler::setOption` (lines 187-196). -/
def setOption (d : RawIOHandlerPrivate) (o : ImageOption) (value : QVariant) :
    RawIOHandlerPrivate :=
  match o with
  | ImageOption.ScaledSize => { d with scaledSize := value.toSize }
  | _ => d

/-- Method `RawIOHandler::supportsOption` (lines 199-211). -/
def supportsOption (o : ImageOption) : Bool :=
  match o with
  | ImageOption.ImageFormat => true
  | ImageOption.Size => true
  | ImageOption.ScaledSize => true
  | _ => false

/-! ## Sample collaborators and inputs -/

/-- A decoder that opens device `1` only, as the raw file `raw`, with sample
Qt primitives: the buffer constructor keeps the bytes, the JPEG loader fails,
`scaled` returns an image of the size asked for (its pixel bytes are not
computed), fresh memory holds `255`. -/
def sampleExtern (raw : LibRaw) : Extern where
  open_datastream := fun dev => if dev = 1 then some raw else none
  loadFromData := fun _ => QImage.null
  fromRGB32 := fun pixels w h => ⟨(w : Int), (h : Int), pixels⟩
  scaled := fun _ sz => ⟨sz.width, sz.height, []⟩
  uninit := fun _ => 255

/-- A 2 x 1 bitmap with three 8-bit channels. -/
def sampleRGB : libraw_processed_image_t :=
  { type := LibRaw_image_formats.LIBRAW_IMAGE_BITMAP,
    height := 1, width := 2, colors := 3, bits := 8,
    data := [10, 20, 30, 40, 50, 60] }

/-- A 2 x 1 bitmap with one 16-bit channel. -/
def sampleGray : libraw_processed_image_t :=
  { type := LibRaw_image_formats.LIBRAW_IMAGE_BITMAP,
    height := 1, width := 2, colors := 1, bits := 16,
    data := [10, 20, 30, 40] }

/-- A raw file of native size `w` x `h` with a `tw` x `th` thumbnail, whose
full decode and whose thumbnail decode both hand out `output`. -/
def sampleRaw (w h tw th : Nat) (output : libraw_processed_image_t) : LibRaw :=
  { sizes_width := w, sizes_height := h,
    thumbnail_twidth := tw, thumbnail_theight := th,
    dcraw_make_mem_thumb := some output, dcraw_make_mem_image := some output }

/-- A 4000 x 3000 raw file with a 160 x 120 thumbnail; the thumbnail decode
hands out `sampleGray`, the full decode `sampleRGB`. -/
def sampleCamera : LibRaw :=
  { sizes_width := 4000, sizes_height := 3000,
    thumbnail_twidth := 160, thumbnail_theight := 120,
    dcraw_make_mem_thumb := some sampleGray, dcraw_make_mem_image := some sampleRGB }

/-- The handler state just after a successful `load` of `raw` from device `dev`,
with the requested size `scaledSize`. -/
def loadedState (raw : LibRaw) (dev : QIODevice) (scaledSize : QSize) :
    RawIOHandlerPrivate :=
  { raw := some raw, stream := some ⟨dev⟩,
    defaultSize := ⟨(raw.sizes_width : Int), (raw.sizes_height : Int)⟩,
    scaledSize := scaledSize }

/-- State invariant: while a decoder is held, `defaultSize` is the native size
`imgdata.sizes.width` x `imgdata.sizes.height` that `load` recorded. -/
def RecordedSize (d : RawIOHandlerPrivate) : Prop :=
  ∀ raw, d.raw = some raw →
    d.defaultSize = ⟨(raw.sizes_width : Int), (raw.sizes_height : Int)⟩

/-! ## The conversion loop -/

/-- Offset, inside a pixel's sample group, of the byte that the loop body
copies to output channel `c` (0, 1, 2): the three branches of lines 136-144
described by one expression. -/
def srcOffset (output : libraw_processed_image_t) (colorSize c : Nat) : Nat :=
  if output.colors = 3 then (2 - c) * colorSize else 0

theorem writeByte_of_lt {pixels : List Nat} {idx : Nat} (v : Nat)
    (h : idx < pixels.length) : writeByte pixels idx v = some (pixels.set idx v) := by
  simp [writeByte, h]

theorem newUchar_length (ext : Extern) (n : Nat) : (newUchar ext n).length = n := by
  simp [newUchar]

theorem newUchar_getElem? (ext : Extern) (n idx : Nat) (h : idx < n) :
    (newUchar ext n)[idx]? = some (ext.uninit idx) := by
  simp [newUchar, List.getElem?_map, List.getElem?_range h]

/-- One iteration of the loop body, when its three reads and its last write
are inside the buffers. -/
theorem pixelBody_some (output : libraw_processed_image_t) (colorSize data i : Nat)
    (pixels : List Nat)
    (hr : ∀ c, c < 3 → data + srcOffset output colorSize c < output.data.length)
    (hw : i * 4 + 2 < pixels.length) :
    ∃ a b c, output.data[data + srcOffset output colorSize 0]? = some a ∧
      output.data[data + srcOffset output colorSize 1]? = some b ∧
      output.data[data + srcOffset output colorSize 2]? = some c ∧
      pixelBody output colorSize data i pixels
        = some (((pixels.set (i * 4) a).set (i * 4 + 1) b).set (i * 4 + 2) c) := by
  have h0 := hr 0 (by omega)
  have h1 := hr 1 (by omega)
  have h2 := hr 2 (by omega)
  have w0 : i * 4 < pixels.length := by omega
  have w1 : i * 4 + 1 < pixels.length := by omega
  by_cases hc : output.colors = 3
  · simp only [srcOffset, hc, if_true, Nat.sub_zero, Nat.sub_self, Nat.zero_mul,
      Nat.add_zero, Nat.add_one_sub_one] at h0 h1 h2 ⊢
    have h1' : data + 1 * colorSize < output.data.length := h1
    refine ⟨output.data[data + 2 * colorSize], output.data[data + 1 * colorSize],
      output.data[data], List.getElem?_eq_getElem h0, List.getElem?_eq_getElem h1',
      List.getElem?_eq_getElem h2, ?_⟩
    have h1c : data + colorSize < output.data.length := by omega
    simp [pixelBody, hc, readByte, writeByte, List.getElem?_eq_getElem, h0, h1c, h2,
      w0, w1, hw]
  · simp only [srcOffset, hc, if_false, Nat.add_zero] at h0 ⊢
    refine ⟨output.data[data], output.data[data], output.data[data],
      List.getElem?_eq_getElem h0, List.getElem?_eq_getElem h0,
      List.getElem?_eq_getElem h0, ?_⟩
    simp [pixelBody, hc, readByte, writeByte, List.getElem?_eq_getElem, h0, w0, w1, hw]

/-- The loop, started at pixel `i` with `todo` pixels left: it runs to the
end, fills channels 0, 1, 2 of the pixels `i .. i + todo - 1` and leaves every
other byte of `pixels` as it was. -/
theorem pixelLoop_spec (output : libraw_processed_image_t) (colorSize pixelSize : Nat) :
    ∀ (todo i : Nat) (pixels : List Nat),
      (i + todo) * 4 ≤ pixels.length →
      (∀ j, i ≤ j → j < i + todo → ∀ c, c < 3 →
        j * pixelSize + srcOffset output colorSize c < output.data.length) →
      ∃ out, pixelLoop output colorSize pixelSize todo i (i * pixelSize) pixels = some out ∧
        out.length = pixels.length ∧
        (∀ j, i ≤ j → j < i + todo → ∀ c, c < 3 →
          out[j * 4 + c]? = output.data[j * pixelSize + srcOffset output colorSize c]?) ∧
        (∀ idx, (idx < i * 4 ∨ (i + todo) * 4 ≤ idx ∨ idx % 4 = 3) →
          out[idx]? = pixels[idx]?) := by
  intro todo
  induction todo with
  | zero =>
    intro i pixels _ _
    refine ⟨pixels, rfl, rfl, ?_, fun _ _ => rfl⟩
    intro j h1 h2
    omega
  | succ todo ih =>
    intro i pixels hlen hrd
    obtain ⟨a, b, c, ha, hb, hc, hbody⟩ :=
      pixelBody_some output colorSize (i * pixelSize) i pixels
        (fun c hc => hrd i (Nat.le_refl i) (by omega) c hc) (by omega)
    have hstep : (i + 1) * pixelSize = i * pixelSize + pixelSize := by ring
    obtain ⟨out, hout, hlen1, hfill, hframe⟩ :=
      ih (i + 1) (((pixels.set (i * 4) a).set (i * 4 + 1) b).set (i * 4 + 2) c)
        (by simp; omega)
        (fun j h1 h2 c hc => hrd j (by omega) (by omega) c hc)
    refine ⟨out, ?_, ?_, ?_, ?_⟩
    · rw [pixelLoop, hbody]
      simpa [hstep] using hout
    · simpa using hlen1
    · intro j h1 h2 k hk
      by_cases hj : j = i
      · subst hj
        rw [hframe (j * 4 + k) (Or.inl (by omega))]
        have w0 : j * 4 < pixels.length := by omega
        have w1 : j * 4 + 1 < pixels.length := by omega
        have w2 : j * 4 + 2 < pixels.length := by omega
        have hk3 : k = 0 ∨ k = 1 ∨ k = 2 := by omega
        rcases hk3 with rfl | rfl | rfl
        · simp [List.getElem?_set, w0, ha]
        · simp [List.getElem?_set, w1, hb]
        · simp [List.getElem?_set, w2, hc]
      · exact hfill j (by omega) (by omega) k hk
    · intro idx hidx
      rw [hframe idx (by omega)]
      have n0 : i * 4 ≠ idx := by omega
      have n1 : i * 4 + 1 ≠ idx := by omega
      have n2 : i * 4 + 2 ≠ idx := by omega
      simp [List.getElem?_set, n0, n1, n2]

/-- The whole conversion, for a decoder output whose reads stay inside
`data`: it yields a buffer of `4 * numPixels` bytes, channel `c` of pixel `j`
holding the selected source byte and every fourth byte left uninitialised. -/
theorem convertPixels_spec (ext : Extern) (output : libraw_processed_image_t)
    (hrd : ∀ j, j < output.width * output.height → ∀ c, c < 3 →
      j * (output.colors * (output.bits / 8)) + srcOffset output (output.bits / 8) c
        < output.data.length) :
    ∃ out, convertPixels ext output = some out ∧
      out.length = 4 * (output.width * output.height) ∧
      (∀ j, j < output.width * output.height → ∀ c, c < 3 →
        out[j * 4 + c]? = output.data[j * (output.colors * (output.bits / 8))
          + srcOffset output (output.bits / 8) c]?) ∧
      (∀ j, j < output.width * output.height →
        out[j * 4 + 3]? = some (ext.uninit (j * 4 + 3))) := by
  obtain ⟨out, hout, hlen, hfill, hframe⟩ :=
    pixelLoop_spec output (output.bits / 8) (output.colors * (output.bits / 8))
      (output.width * output.height) 0 (newUchar ext (output.width * output.height * 4))
      (by simp [newUchar_length])
      (fun j _ h2 c hc => hrd j (by omega) c hc)
  refine ⟨out, ?_, ?_, ?_, ?_⟩
  · simpa [convertPixels] using hout
  · rw [hlen, newUchar_length]; omega
  · intro j hj c hc
    exact hfill j (Nat.zero_le j) (by omega) c hc
  · intro j hj
    rw [hframe (j * 4 + 3) (Or.inr (Or.inr (by omega)))]
    exact newUchar_getElem? ext _ _ (by omega)

theorem index_lt_of_offset_lt (j n pixelSize off : Nat) (hj : j < n)
    (hoff : off < pixelSize) : j * pixelSize + off < n * pixelSize := by
  have h1 : (j + 1) * pixelSize ≤ n * pixelSize := Nat.mul_le_mul_right _ hj
  have h2 : (j + 1) * pixelSize = j * pixelSize + pixelSize := by ring
  omega

theorem srcOffset_lt (output : libraw_processed_image_t) (colorSize c : Nat)
    (hcolors : 1 ≤ output.colors) (hsize : 1 ≤ colorSize) :
    srcOffset output colorSize c < output.colors * colorSize := by
  unfold srcOffset
  split
  · next h =>
    rw [h]
    have h1 : (2 - c) * colorSize ≤ 2 * colorSize := Nat.mul_le_mul_right _ (by omega)
    omega
  · exact Nat.mul_pos hcolors hsize

/-- The conversion of a bitmap whose `data` holds exactly
`width * height * colors * (bits / 8)` bytes, with at least one channel of at
least one byte. -/
theorem convertPixels_exact (ext : Extern) (output : libraw_processed_image_t)
    (hcolors : 1 ≤ output.colors) (hsize : 1 ≤ output.bits / 8)
    (hdata : output.data.length
      = output.width * output.height * (output.colors * (output.bits / 8))) :
    ∃ out, convertPixels ext output = some out ∧
      out.length = 4 * (output.width * output.height) ∧
      (∀ j, j < output.width * output.height → ∀ c, c < 3 →
        out[j * 4 + c]? = output.data[j * (output.colors * (output.bits / 8))
          + srcOffset output (output.bits / 8) c]?) ∧
      (∀ j, j < output.width * output.height →
        out[j * 4 + 3]? = some (ext.uninit (j * 4 + 3))) := by
  apply convertPixels_spec
  intro j hj c _
  rw [hdata]
  exact index_lt_of_offset_lt _ _ _ _ hj (srcOffset_lt output _ c hcolors hsize)

/-! ## Claims about the conversion loop -/

/-- The bounds check of the embedding is effective: with one byte missing
from `data` the loop reads outside the buffer. -/
theorem convertPixels_short_buffer :
    convertPixels (sampleExtern (sampleRaw 2 1 0 0 sampleRGB))
      { sampleRGB with data := [10, 20, 30, 40, 50] } = none := by
  decide

/-! ## Facts about `load` and `read` -/

theorem load_null (ext : Extern) (d : RawIOHandlerPrivate) :
    load ext d none = (false, d) := rfl

theorem load_loaded (ext : Extern) (d : RawIOHandlerPrivate) (dev : QIODevice)
    {r : LibRaw} (hr : d.raw = some r) : load ext d (some dev) = (true, d) := by
  simp [load, hr]

theorem load_open_failed (ext : Extern) (d : RawIOHandlerPrivate) (dev : QIODevice)
    (hr : d.raw = none) (ho : ext.open_datastream dev = none) :
    load ext d (some dev) = (false, { d with raw := none, stream := none }) := by
  simp [load, hr, ho]

theorem load_opened (ext : Extern) (d : RawIOHandlerPrivate) (dev : QIODevice)
    {r : LibRaw} (hr : d.raw = none) (ho : ext.open_datastream dev = some r) :
    load ext d (some dev)
      = (true, { d with
          raw := some r
          stream := some ⟨dev⟩
          defaultSize := ⟨(r.sizes_width : Int), (r.sizes_height : Int)⟩ }) := by
  simp [load, hr, ho]

theorem load_true_raw {ext : Extern} {d d1 : RawIOHandlerPrivate}
    {device : Option QIODevice} (h : load ext d device = (true, d1)) :
    ∃ raw, d1.raw = some raw := by
  cases device with
  | none => simp [load_null] at h
  | some dev =>
    cases hr : d.raw with
    | some r =>
      rw [load_loaded ext d dev hr] at h
      simp only [Prod.mk.injEq, true_and] at h
      exact ⟨r, by rw [← h]; exact hr⟩
    | none =>
      cases ho : ext.open_datastream dev with
      | none => simp [load_open_failed ext d dev hr ho] at h
      | some r =>
        rw [load_opened ext d dev hr ho] at h
        simp only [Prod.mk.injEq, true_and] at h
        exact ⟨r, by rw [← h]⟩

theorem load_scaledSize (ext : Extern) (d : RawIOHandlerPrivate)
    (device : Option QIODevice) : (load ext d device).2.scaledSize = d.scaledSize := by
  cases device with
  | none => rfl
  | some dev =>
    cases hr : d.raw with
    | some r => rw [load_loaded ext d dev hr]
    | none =>
      cases ho : ext.open_datastream dev with
      | none => rw [load_open_failed ext d dev hr ho]
      | some r => rw [load_opened ext d dev hr ho]

theorem load_recordedSize (ext : Extern) (d : RawIOHandlerPrivate)
    (device : Option QIODevice) (h : RecordedSize d) :
    RecordedSize (load ext d device).2 := by
  cases device with
  | none => exact h
  | some dev =>
    cases hr : d.raw with
    | some r => rw [load_loaded ext d dev hr]; exact h
    | none =>
      cases ho : ext.open_datastream dev with
      | none =>
        rw [load_open_failed ext d dev hr ho]
        intro raw hraw
        simp at hraw
      | some r =>
        rw [load_opened ext d dev hr ho]
        intro raw hraw
        simp only [Option.some.injEq] at hraw
        subst hraw
        rfl

theorem init_recordedSize (stream : Option Datastream) :
    RecordedSize (RawIOHandlerPrivate.init stream) := by
  intro raw hraw
  simp [RawIOHandlerPrivate.init] at hraw

theorem setOption_recordedSize (d : RawIOHandlerPrivate) (o : ImageOption)
    (value : QVariant) (h : RecordedSize d) : RecordedSize (setOption d o value) := by
  cases o <;> exact h

theorem option_recordedSize (ext : Extern) (d : RawIOHandlerPrivate)
    (device : Option QIODevice) (o : ImageOption) (h : RecordedSize d) :
    RecordedSize (option ext d device o).2 := by
  cases o <;> first | exact h | exact load_recordedSize ext d device h

/-- The conversion of a decoder output succeeds on a JPEG thumbnail and on a
bitmap whose `data` has the size its header announces. -/
theorem normalize_some (ext : Extern) (output : libraw_processed_image_t)
    (h : output.type = LibRaw_image_formats.LIBRAW_IMAGE_JPEG ∨
      (1 ≤ output.colors ∧ 1 ≤ output.bits / 8 ∧
        output.data.length
          = output.width * output.height * (output.colors * (output.bits / 8)))) :
    ∃ unscaled, normalize ext output = some unscaled := by
  by_cases ht : output.type = LibRaw_image_formats.LIBRAW_IMAGE_JPEG
  · exact ⟨ext.loadFromData output.data, by simp [normalize, ht]⟩
  · rcases h with h | ⟨hc, hs, hd⟩
    · exact absurd h ht
    · obtain ⟨out, hout, _⟩ := convertPixels_exact ext output hc hs hd
      exact ⟨ext.fromRGB32 out output.width output.height,
        by simp [normalize, ht, hout]⟩

/-- The run of `read` once `load` has succeeded and the decoder output has
been converted. -/
theorem read_of_normalize {ext : Extern} {d d1 : RawIOHandlerPrivate}
    {device : Option QIODevice} {raw : LibRaw} {output : libraw_processed_image_t}
    {unscaled : QImage} (image : QImage)
    (hload : load ext d device = (true, d1)) (hraw : d1.raw = some raw)
    (hsel : selectOutput (finalSize d1) raw = some output)
    (hnorm : normalize ext output = some unscaled) :
    read ext d device image = some (true, d1, finish ext unscaled (finalSize d1)) := by
  simp [read, hload, hraw, hsel, hnorm]

/-- Outcome of `read`: it returns `false` exactly when `load` does. -/
theorem read_flag {ext : Extern} {d d1 : RawIOHandlerPrivate}
    {device : Option QIODevice} {image img : QImage} {ok : Bool}
    (h : read ext d device image = some (ok, d1, img)) :
    ok = (load ext d device).1 ∧ d1 = (load ext d device).2 := by
  unfold read at h
  rcases hl : load ext d device with ⟨b, d2⟩
  rw [hl] at h
  cases b with
  | false =>
    simp only [Option.some.injEq, Prod.mk.injEq] at h
    exact ⟨h.1.symm, h.2.1.symm⟩
  | true =>
    simp only at h
    cases hr : d2.raw with
    | none => simp [hr] at h
    | some raw =>
      simp only [hr] at h
      cases hs : selectOutput (finalSize d2) raw with
      | none => simp [hs] at h
      | some output =>
        simp only [hs] at h
        cases hn : normalize ext output with
        | none => simp [hn] at h
        | some unscaled =>
          simp only [hn, Option.some.injEq, Prod.mk.injEq] at h
          exact ⟨h.1.symm, h.2.1.symm⟩

/-! ## Claims about `read` -/

/-- C4, as stated, fails: with native size 4000 x 3000 and a 160 x 120
thumbnail, the request 100 x 3000 is smaller than the thumbnail in width only,
and the thumbnail is decoded all the same. -/
theorem C4_counterexample :
    (⟨100, 3000⟩ : QSize).isValid = true ∧
    ¬ ((⟨100, 3000⟩ : QSize).width < (sampleCamera.thumbnail_twidth : Int) ∧
       (⟨100, 3000⟩ : QSize).height < (sampleCamera.thumbnail_theight : Int)) ∧
    usesThumbnail (finalSize (loadedState sampleCamera 1 ⟨100, 3000⟩)) sampleCamera
      = true ∧
    selectOutput (finalSize (loadedState sampleCamera 1 ⟨100, 3000⟩)) sampleCamera
      = some sampleGray ∧
    read (sampleExtern sampleCamera)
        (setOption (RawIOHandlerPrivate.init none) ImageOption.ScaledSize
          (QVariant.size ⟨100, 3000⟩))
        (some 1) QImage.null
      = some (true, loadedState sampleCamera 1 ⟨100, 3000⟩, ⟨100, 3000, []⟩) := by
  decide

/-- C4, amended: the thumbnail is decoded if and only if the effective target
size, which is the requested size when that one is valid (both dimensions at
least 0) and the native size otherwise, is strictly smaller than the thumbnail
in width or in height; in every other case the full-resolution image is
decoded. So a request strictly smaller than the thumbnail in both axes selects
the thumbnail, a request at least as large as the thumbnail in both axes (in
particular one equal to it) selects full resolution, and so does the absence
of a request when the native size is at least the thumbnail size. With native
size 4000 x 3000 and thumbnail 160 x 120: request 100 x 80 selects the
thumbnail, request 3000 x 2000 and no request select full resolution. -/
theorem C4_source_selection (d : RawIOHandlerPrivate) (raw : LibRaw) :
    (usesThumbnail (finalSize d) raw = true ↔
      (d.scaledSize.isValid = true ∧
        (d.scaledSize.width < (raw.thumbnail_twidth : Int) ∨
          d.scaledSize.height < (raw.thumbnail_theight : Int))) ∨
      (d.scaledSize.isValid = false ∧
        (d.defaultSize.width < (raw.thumbnail_twidth : Int) ∨
          d.defaultSize.height < (raw.thumbnail_theight : Int)))) ∧
    (usesThumbnail (finalSize d) raw = true →
      selectOutput (finalSize d) raw = raw.dcraw_make_mem_thumb) ∧
    (usesThumbnail (finalSize d) raw = false →
      selectOutput (finalSize d) raw = raw.dcraw_make_mem_image) ∧
    (d.scaledSize.isValid = true →
      d.scaledSize.width < (raw.thumbnail_twidth : Int) →
      d.scaledSize.height < (raw.thumbnail_theight : Int) →
      usesThumbnail (finalSize d) raw = true) ∧
    (d.scaledSize.isValid = true →
      (raw.thumbnail_twidth : Int) ≤ d.scaledSize.width →
      (raw.thumbnail_theight : Int) ≤ d.scaledSize.height →
      usesThumbnail (finalSize d) raw = false) ∧
    (d.scaledSize.isValid = false →
      (raw.thumbnail_twidth : Int) ≤ d.defaultSize.width →
      (raw.thumbnail_theight : Int) ≤ d.defaultSize.height →
      usesThumbnail (finalSize d) raw = false) ∧
    usesThumbnail (finalSize (loadedState sampleCamera 1 ⟨100, 80⟩)) sampleCamera
      = true ∧
    usesThumbnail (finalSize (loadedState sampleCamera 1 ⟨3000, 2000⟩)) sampleCamera
      = false ∧
    usesThumbnail (finalSize (loadedState sampleCamera 1 QSize.invalid)) sampleCamera
      = false := by
  refine ⟨?_, ?_, ?_, ?_, ?_, ?_, by decide, by decide, by decide⟩
  · cases hv : d.scaledSize.isValid <;> simp [usesThumbnail, finalSize, hv]
  · intro h
    simp [selectOutput, h]
  · intro h
    simp [selectOutput, h]
  · intro hv hw _
    simp [usesThumbnail, finalSize, hv, hw]
  · intro hv hw hh
    simp [usesThumbnail, finalSize, hv, hw, hh]
  · intro hv hw hh
    simp [usesThumbnail, finalSize, hv, hw, hh]

theorem finish_size (ext : Extern) (unscaled : QImage) (fs : QSize)
    (hscaled : ∀ u sz, (ext.scaled u sz).size = sz) :
    (finish ext unscaled fs).size = fs := by
  unfold finish
  split
  · exact hscaled unscaled fs
  · next h => exact not_not.mp h

/-- C5: provided `scaled` returns an image of exactly the size it is given,
every `read` that returns `true` stores an image whose size is the requested
size `scaledSize` when that one is valid, and otherwise the native size
`imgdata.sizes.width` x `imgdata.sizes.height` recorded by `load`, whatever
the size of the decoder output. -/
theorem C5_returned_size (ext : Extern) (d d1 : RawIOHandlerPrivate)
    (device : Option QIODevice) (image img : QImage)
    (hscaled : ∀ u sz, (ext.scaled u sz).size = sz)
    (hinv : RecordedSize d)
    (hread : read ext d device image = some (true, d1, img)) :
    ∃ raw, d1.raw = some raw ∧
      img.size = if d.scaledSize.isValid then d.scaledSize
        else ⟨(raw.sizes_width : Int), (raw.sizes_height : Int)⟩ := by
  obtain ⟨hok, hd1⟩ := read_flag hread
  have hload : load ext d device = (true, d1) := by
    rw [hok, hd1]
  obtain ⟨raw, hraw⟩ := load_true_raw hload
  have hinv1 : RecordedSize d1 := by
    rw [hd1]; exact load_recordedSize ext d device hinv
  have hsc : d1.scaledSize = d.scaledSize := by
    rw [hd1]; exact load_scaledSize ext d device
  refine ⟨raw, hraw, ?_⟩
  have himg : img.size = finalSize d1 := by
    unfold read at hread
    rw [hload] at hread
    simp only [hraw] at hread
    cases hs : selectOutput (finalSize d1) raw with
    | none => simp [hs] at hread
    | some output =>
      simp only [hs] at hread
      cases hn : normalize ext output with
      | none => simp [hn] at hread
      | some unscaled =>
        simp only [hn, Option.some.injEq, Prod.mk.injEq, true_and] at hread
        rw [← hread]
        exact finish_size ext unscaled (finalSize d1) hscaled
  rw [himg, finalSize, hsc, hinv1 raw hraw]

/-- Witness of C5: a fresh handler reading a 4 x 3 raw file whose decoder
output is 2 x 1 returns a 4 x 3 image. -/
theorem C5_returned_size_witness :
    read (sampleExtern (sampleRaw 4 3 0 0 sampleRGB)) (RawIOHandlerPrivate.init none)
        (some 1) QImage.null
      = some (true, loadedState (sampleRaw 4 3 0 0 sampleRGB) 1 QSize.invalid,
          ⟨4, 3, []⟩) ∧
    ∃ raw, (loadedState (sampleRaw 4 3 0 0 sampleRGB) 1 QSize.invalid).raw = some raw ∧
      (⟨4, 3, []⟩ : QImage).size
        = if (RawIOHandlerPrivate.init none).scaledSize.isValid
          then (RawIOHandlerPrivate.init none).scaledSize
          else ⟨(raw.sizes_width : Int), (raw.sizes_height : Int)⟩ :=
  ⟨by decide,
    C5_returned_size (sampleExtern (sampleRaw 4 3 0 0 sampleRGB))
      (RawIOHandlerPrivate.init none)
      (loadedState (sampleRaw 4 3 0 0 sampleRGB) 1 QSize.invalid)
      (some 1) QImage.null ⟨4, 3, []⟩ (fun _ _ => rfl) (init_recordedSize none)
      (by decide)⟩

/-- C6, as stated, fails: with no size requested, a 4 x 3 raw file whose
decoder output is the 2 x 1 bitmap `sampleRGB` is not returned as converted;
the converted image is resampled to the native size 4 x 3. -/
theorem C6_counterexample :
    (RawIOHandlerPrivate.init none).scaledSize.isValid = false ∧
    normalize (sampleExtern (sampleRaw 4 3 0 0 sampleRGB)) sampleRGB
      = some ⟨2, 1, [30, 20, 10, 255, 60, 50, 40, 255]⟩ ∧
    read (sampleExtern (sampleRaw 4 3 0 0 sampleRGB)) (RawIOHandlerPrivate.init none)
        (some 1) QImage.null
      = some (true, loadedState (sampleRaw 4 3 0 0 sampleRGB) 1 QSize.invalid,
          (sampleExtern (sampleRaw 4 3 0 0 sampleRGB)).scaled
            ⟨2, 1, [30, 20, 10, 255, 60, 50, 40, 255]⟩ ⟨4, 3⟩) ∧
    (sampleExtern (sampleRaw 4 3 0 0 sampleRGB)).scaled
        ⟨2, 1, [30, 20, 10, 255, 60, 50, 40, 255]⟩ ⟨4, 3⟩
      ≠ ⟨2, 1, [30, 20, 10, 255, 60, 50, 40, 255]⟩ := by
  decide

/-- C6, amended: when no valid size has been requested, the effective target
size of `read` is the native size `defaultSize` recorded by `load`; the
converted image is returned unchanged when its size equals the native size,
and is resampled to the native size otherwise. -/
theorem C6_no_request_targets_native_size (ext : Extern) (d d1 : RawIOHandlerPrivate)
    (device : Option QIODevice) (image : QImage) (raw : LibRaw)
    (output : libraw_processed_image_t) (unscaled : QImage)
    (hreq : d.scaledSize.isValid = false)
    (hload : load ext d device = (true, d1)) (hraw : d1.raw = some raw)
    (hsel : selectOutput (finalSize d1) raw = some output)
    (hnorm : normalize ext output = some unscaled) :
    finalSize d1 = d1.defaultSize ∧
    read ext d device image
      = some (true, d1,
          if unscaled.size = d1.defaultSize then unscaled
          else ext.scaled unscaled d1.defaultSize) := by
  have hsc : d1.scaledSize = d.scaledSize := by
    have := load_scaledSize ext d device
    rw [hload] at this
    exact this
  have hfs : finalSize d1 = d1.defaultSize := by
    simp [finalSize, hsc, hreq]
  refine ⟨hfs, ?_⟩
  rw [read_of_normalize image hload hraw hsel hnorm, hfs]
  by_cases h : unscaled.size = d1.defaultSize <;> simp [finish, h]

/-- Witness of the amended C6: the 2 x 1 output of a 2 x 1 raw file is returned
as converted. -/
theorem C6_no_request_targets_native_size_witness :
    finalSize (loadedState (sampleRaw 2 1 0 0 sampleRGB) 1 QSize.invalid)
      = (loadedState (sampleRaw 2 1 0 0 sampleRGB) 1 QSize.invalid).defaultSize ∧
    read (sampleExtern (sampleRaw 2 1 0 0 sampleRGB)) (RawIOHandlerPrivate.init none)
        (some 1) QImage.null
      = some (true, loadedState (sampleRaw 2 1 0 0 sampleRGB) 1 QSize.invalid,
          if (⟨2, 1, [30, 20, 10, 255, 60, 50, 40, 255]⟩ : QImage).size
              = (loadedState (sampleRaw 2 1 0 0 sampleRGB) 1 QSize.invalid).defaultSize
          then ⟨2, 1, [30, 20, 10, 255, 60, 50, 40, 255]⟩
          else (sampleExtern (sampleRaw 2 1 0 0 sampleRGB)).scaled
            ⟨2, 1, [30, 20, 10, 255, 60, 50, 40, 255]⟩
            (loadedState (sampleRaw 2 1 0 0 sampleRGB) 1 QSize.invalid).defaultSize) :=
  C6_no_request_targets_native_size (sampleExtern (sampleRaw 2 1 0 0 sampleRGB))
    (RawIOHandlerPrivate.init none)
    (loadedState (sampleRaw 2 1 0 0 sampleRGB) 1 QSize.invalid)
    (some 1) QImage.null (sampleRaw 2 1 0 0 sampleRGB) sampleRGB
    ⟨2, 1, [30, 20, 10, 255, 60, 50, 40, 255]⟩
    (by decide) (by decide) rfl (by decide) (by decide)

/-- C7, as stated, fails: after `setOption(ScaledSize, ...)` with the size
0 x 0, and likewise with the size -5 x 10, `read` returns `true`; the first
request is used as the target, the second is ignored. -/
theorem C7_counterexample :
    read (sampleExtern (sampleRaw 2 1 0 0 sampleRGB))
        (setOption (RawIOHandlerPrivate.init none) ImageOption.ScaledSize
          (QVariant.size ⟨0, 0⟩))
        (some 1) QImage.null
      = some (true, loadedState (sampleRaw 2 1 0 0 sampleRGB) 1 ⟨0, 0⟩, ⟨0, 0, []⟩) ∧
    read (sampleExtern (sampleRaw 2 1 0 0 sampleRGB))
        (setOption (RawIOHandlerPrivate.init none) ImageOption.ScaledSize
          (QVariant.size ⟨-5, 10⟩))
        (some 1) QImage.null
      = some (true, loadedState (sampleRaw 2 1 0 0 sampleRGB) 1 ⟨-5, 10⟩,
          ⟨2, 1, [30, 20, 10, 255, 60, 50, 40, 255]⟩) := by
  decide

/-- C7, amended: `read` does not fail on account of the requested size. Once
`load` has succeeded and the decoder hands out convertible images, `read`
returns `true` for every requested size `s`, whether its dimensions are
positive, zero or negative; a request with a negative dimension is ignored
(the target is the native size `defaultSize`), every other request, a zero
dimension included, is the target as it stands. -/
theorem C7_read_succeeds_for_every_size (ext : Extern) (d d1 : RawIOHandlerPrivate)
    (device : Option QIODevice) (image : QImage) (raw : LibRaw)
    (thumb full : libraw_processed_image_t) (uthumb ufull : QImage) (s : QSize)
    (hload : load ext (setOption d ImageOption.ScaledSize (QVariant.size s)) device
      = (true, d1))
    (hraw : d1.raw = some raw)
    (hthumb : raw.dcraw_make_mem_thumb = some thumb)
    (hfull : raw.dcraw_make_mem_image = some full)
    (hnt : normalize ext thumb = some uthumb)
    (hnf : normalize ext full = some ufull) :
    (∃ img, read ext (setOption d ImageOption.ScaledSize (QVariant.size s)) device image
      = some (true, d1, img)) ∧
    ((s.width < 0 ∨ s.height < 0) → finalSize d1 = d1.defaultSize) ∧
    ((0 ≤ s.width ∧ 0 ≤ s.height) → finalSize d1 = s) := by
  have hsc : d1.scaledSize = s := by
    have := load_scaledSize ext (setOption d ImageOption.ScaledSize (QVariant.size s)) device
    rw [hload] at this
    simpa [setOption, QVariant.toSize] using this
  refine ⟨?_, ?_, ?_⟩
  · cases hu : usesThumbnail (finalSize d1) raw with
    | true =>
      exact ⟨_, read_of_normalize image hload hraw
        (by simp [selectOutput, hu, hthumb]) hnt⟩
    | false =>
      exact ⟨_, read_of_normalize image hload hraw
        (by simp [selectOutput, hu, hfull]) hnf⟩
  · intro h
    have hv : s.isValid = false := by
      rcases h with h | h
      · simp [QSize.isValid, h]
      · simp [QSize.isValid, h]
    simp [finalSize, hsc, hv]
  · intro h
    have hv : s.isValid = true := by
      simp [QSize.isValid, h.1, h.2]
    simp [finalSize, hsc, hv]

/-- Witness of the amended C7 with the requested size 0 x 0. -/
theorem C7_read_succeeds_for_every_size_witness :
    (∃ img, read (sampleExtern (sampleRaw 2 1 0 0 sampleRGB))
        (setOption (RawIOHandlerPrivate.init none) ImageOption.ScaledSize
          (QVariant.size ⟨0, 0⟩))
        (some 1) QImage.null
      = some (true, loadedState (sampleRaw 2 1 0 0 sampleRGB) 1 ⟨0, 0⟩, img)) ∧
    (((⟨0, 0⟩ : QSize).width < 0 ∨ (⟨0, 0⟩ : QSize).height < 0) →
      finalSize (loadedState (sampleRaw 2 1 0 0 sampleRGB) 1 ⟨0, 0⟩)
        = (loadedState (sampleRaw 2 1 0 0 sampleRGB) 1 ⟨0, 0⟩).defaultSize) ∧
    ((0 ≤ (⟨0, 0⟩ : QSize).width ∧ 0 ≤ (⟨0, 0⟩ : QSize).height) →
      finalSize (loadedState (sampleRaw 2 1 0 0 sampleRGB) 1 ⟨0, 0⟩) = ⟨0, 0⟩) :=
  C7_read_succeeds_for_every_size (sampleExtern (sampleRaw 2 1 0 0 sampleRGB))
    (RawIOHandlerPrivate.init none)
    (loadedState (sampleRaw 2 1 0 0 sampleRGB) 1 ⟨0, 0⟩)
    (some 1) QImage.null (sampleRaw 2 1 0 0 sampleRGB) sampleRGB sampleRGB
    ⟨2, 1, [30, 20, 10, 255, 60, 50, 40, 255]⟩
    ⟨2, 1, [30, 20, 10, 255, 60, 50, 40, 255]⟩ ⟨0, 0⟩
    (by decide) rfl rfl rfl (by decide) (by decide)

/-! ## Claims about `canRead` and the options -/

theorem canRead_eq_load (ext : Extern) (d : RawIOHandlerPrivate)
    (device : Option QIODevice) : canRead ext d device = load ext d device := by
  unfold canRead
  rcases load ext d device with ⟨b, d1⟩
  cases b <;> rfl

/-- C8, as stated, fails: a handler that has loaded device `1` answers `true`
for device `2`, which the decoder cannot open, and keeps its decoder. -/
theorem C8_counterexample :
    (sampleExtern (sampleRaw 2 1 0 0 sampleRGB)).open_datastream 2 = none ∧
    canRead (sampleExtern (sampleRaw 2 1 0 0 sampleRGB))
        (RawIOHandlerPrivate.init none) (some 1)
      = (true, loadedState (sampleRaw 2 1 0 0 sampleRGB) 1 QSize.invalid) ∧
    canRead (sampleExtern (sampleRaw 2 1 0 0 sampleRGB))
        (loadedState (sampleRaw 2 1 0 0 sampleRGB) 1 QSize.invalid) (some 2)
      = (true, loadedState (sampleRaw 2 1 0 0 sampleRGB) 1 QSize.invalid) := by
  decide

/-- C8, amended: `canRead` returns `true` if and only if the device is not
null and either a decoder is already loaded (no open is attempted then and the
state is unchanged) or `open_datastream` succeeds on the device. With no
decoder loaded and a device that is not null, `canRead` is `true` exactly when
`open_datastream` succeeds, and after a failed open the handler holds no
decoder and no stream. With a null device `canRead` returns `false` and leaves
the state as it was. -/
theorem C8_canRead (ext : Extern) (d : RawIOHandlerPrivate)
    (device : Option QIODevice) :
    ((canRead ext d device).1 = true ↔
      ∃ dev, device = some dev ∧
        (d.raw.isSome = true ∨ (ext.open_datastream dev).isSome = true)) ∧
    (∀ dev, device = some dev → d.raw = none →
      ((canRead ext d device).1 = true ↔ (ext.open_datastream dev).isSome = true)) ∧
    (∀ dev, device = some dev → d.raw = none → ext.open_datastream dev = none →
      (canRead ext d device).2.raw = none ∧ (canRead ext d device).2.stream = none) ∧
    (∀ dev, device = some dev → d.raw.isSome = true →
      canRead ext d device = (true, d)) ∧
    (device = none → canRead ext d device = (false, d)) := by
  rw [canRead_eq_load]
  cases device with
  | none => simp [load_null]
  | some dev =>
    cases hr : d.raw with
    | some r => simp [load_loaded ext d dev hr]
    | none =>
      cases ho : ext.open_datastream dev with
      | none => simp [load_open_failed ext d dev hr ho, ho]
      | some r => simp [load_opened ext d dev hr ho, ho]

/-- C9: the options. For every size `v`, `setOption(ScaledSize, v)` followed by
`option(ScaledSize)` returns `v` and leaves the native size `defaultSize`
unchanged; for every option other than `ScaledSize` (in particular `Size`) and
every value, `setOption` leaves the whole state unchanged; `supportsOption(o)`
is `true` exactly for `ImageFormat`, `Size` and `ScaledSize`, and these are
exactly the options for which `option(o)` returns a variant that is not the
empty `QVariant()`. -/
theorem C9_options (ext : Extern) (d : RawIOHandlerPrivate)
    (device : Option QIODevice) :
    (∀ v : QSize,
      option ext (setOption d ImageOption.ScaledSize (QVariant.size v)) device
          ImageOption.ScaledSize
        = (QVariant.size v, setOption d ImageOption.ScaledSize (QVariant.size v)) ∧
      (setOption d ImageOption.ScaledSize (QVariant.size v)).defaultSize
        = d.defaultSize ∧
      (setOption d ImageOption.ScaledSize (QVariant.size v)).raw = d.raw ∧
      (setOption d ImageOption.ScaledSize (QVariant.size v)).stream = d.stream) ∧
    (∀ (o : ImageOption) (value : QVariant), o ≠ ImageOption.ScaledSize →
      setOption d o value = d) ∧
    (∀ o : ImageOption, supportsOption o = true ↔
      (o = ImageOption.ImageFormat ∨ o = ImageOption.Size ∨ o = ImageOption.ScaledSize)) ∧
    (∀ o : ImageOption, supportsOption o = true ↔
      (option ext d device o).1 ≠ QVariant.empty) := by
  refine ⟨?_, ?_, ?_, ?_⟩
  · intro v
    simp [option, setOption, QVariant.toSize]
  · intro o value ho
    cases o <;> first | rfl | exact absurd rfl ho
  · intro o
    cases o <;> simp [supportsOption]
  · intro o
    cases o <;> simp [supportsOption, option]

end QtRaw
